import Mathlib

/-!
Shallow embedding of the StudyChat client (React + hosted-AI SDK + BaaS) in
Lean 4, for checking its natural-language specification.

Each definition is translated from one function of the source:
- conversation title derivation and assignment (App component);
- the attachment upload batch and the send-message handler (ChatBot component);
- the auth adapter's sign-up path (auth utility module);
- history re-hydration with per-attachment URL re-signing (ChatBot component);
- the voice assistant's transcript assembly, playback scheduling and
  teardown (VoiceAssistant component).

External services (object storage, URL signing, the model session, the auth
provider) are modelled as explicit environments: functions from the request
data to the outcome the service would report.
-/

/-! ## Conversation titles (App component) -/

def DEFAULT_CONVERSATION_TITLE : String := "New chat"

/-- The words of `message` after collapsing runs of whitespace and trimming:
this list equals `message.replace(/\s+/g, ' ').trim().split(' ')` of the
source whenever the cleaned string is nonempty, and is `[]` exactly when the
cleaned string is empty. -/
def splitWordsAux : List Char → List Char → List String
  | [], acc => if acc.isEmpty then [] else [String.mk acc.reverse]
  | c :: cs, acc =>
    if c.isWhitespace then
      if acc.isEmpty then splitWordsAux cs []
      else String.mk acc.reverse :: splitWordsAux cs []
    else splitWordsAux cs (c :: acc)

def splitWords (s : String) : List String :=
  splitWordsAux s.data []

/-- `words.charAt(0).toUpperCase() + words.slice(1)` of the source. -/
def capitalizeFirst (s : String) : String :=
  match s.data with
  | [] => ""
  | c :: rest => String.mk (c.toUpper :: rest)

/-- `generateTitleFromMessage` of the App component: first six words of the
cleaned message, first character capitalized, U+2026 appended when the
cleaned message has more than six words; the default title when the cleaned
message is empty. -/
def generateTitleFromMessage (message : String) : String :=
  let cleanedWords := splitWords message
  if cleanedWords.isEmpty then DEFAULT_CONVERSATION_TITLE
  else
    let words := String.intercalate " " (cleanedWords.take 6)
    let capitalized := capitalizeFirst words
    capitalized ++ (if cleanedWords.length > 6 then "…" else "")

structure Conversation where
  id : String
  title : String
  created_at : String
deriving DecidableEq, Repr

/-- `updateConversationTitle` of the App component, restricted to its effect
on the local conversation list (the remote update writes the same title).
No conversation with the given id, or a title different from the default,
makes it a no-op. -/
def updateConversationTitle (conversations : List Conversation)
    (conversationId : String) (firstMessage : String) : List Conversation :=
  match conversations.find? (fun conv => conv.id = conversationId) with
  | none => conversations
  | some conversation =>
    if conversation.title ≠ DEFAULT_CONVERSATION_TITLE then conversations
    else
      let cleanedTitle := generateTitleFromMessage firstMessage
      conversations.map (fun conv =>
        if conv.id = conversationId then { conv with title := cleanedTitle } else conv)

/-! ## Attachment pipeline and send path (ChatBot component) -/

inductive Role where
  | user
  | model
deriving DecidableEq, Repr

structure ChatAttachment where
  name : String
  url : String
  type : String
  size : Nat
  storagePath : String
deriving DecidableEq, Repr

structure ChatMessage where
  role : Role
  content : String
  attachments : Option (List ChatAttachment)
deriving DecidableEq, Repr

/-- A staged pending attachment. The source pairs the selected file with a
local preview URL; only the file's data is relevant to the upload batch. -/
structure PendingFile where
  name : String
  type : String
  size : Nat
deriving DecidableEq, Repr

structure PersistedAttachment where
  name : String
  type : String
  size : Nat
  storagePath : String
deriving DecidableEq, Repr

/-- Object storage environment: the outcome the storage service reports for
an upload to a given path, and for signing a given path (`.error` covers
both a reported signing error and a response without a URL; the source
raises a fixed message in the latter case). -/
structure StorageEnv where
  uploadError : String → Option String
  createSignedUrl : String → Except String String

/-- `pending.file.name.replace(/[^a-zA-Z0-9.\-]/g, '_')` of the source. -/
def sanitizeFileName (name : String) : String :=
  String.mk (name.data.map fun c =>
    if c.isAlphanum ∨ c = '.' ∨ c = '-' then c else '_')

/-- The storage path built in `uploadAttachments`, namespaced by user id,
upload timestamp and ordinal index. -/
def storagePathFor (userId : String) (timestamp index : Nat) (fileName : String) : String :=
  userId ++ "/" ++ toString timestamp ++ "-" ++ toString index ++ "-" ++ sanitizeFileName fileName

/-- The error the loop body of `uploadAttachments` would raise for the file
at the given index, if any: the upload error first, then the signing error. -/
def stepError (env : StorageEnv) (userId : String) (timestamp index : Nat)
    (pending : PendingFile) : Option String :=
  let path := storagePathFor userId timestamp index pending.name
  match env.uploadError path with
  | some uploadErr => some uploadErr
  | none =>
    match env.createSignedUrl path with
    | .error signedErr => some signedErr
    | .ok _ => none

/-- The error raised by the first failing staged file at or after the given
index, scanning in staging order; `none` when every remaining file's upload
and signing succeed. -/
def firstFailure (env : StorageEnv) (userId : String) (timestamp : Nat) :
    Nat → List PendingFile → Option String
  | _, [] => none
  | index, pending :: rest =>
    match stepError env userId timestamp index pending with
    | some e => some e
    | none => firstFailure env userId timestamp (index + 1) rest

/-- The `for (const [index, pending] of pendingAttachments.entries())` loop
of `uploadAttachments`: the source pushes each persisted/display pair onto
two accumulators and throws on the first upload or signing error. -/
def uploadLoop (env : StorageEnv) (userId : String) (timestamp : Nat) :
    Nat → List PendingFile → List PersistedAttachment → List ChatAttachment →
    Except String (List PersistedAttachment × List ChatAttachment)
  | _, [], persisted, display => .ok (persisted, display)
  | index, pending :: rest, persisted, display =>
    let path := storagePathFor userId timestamp index pending.name
    match env.uploadError path with
    | some uploadErr => .error uploadErr
    | none =>
      match env.createSignedUrl path with
      | .error signedErr => .error signedErr
      | .ok signedUrl =>
        uploadLoop env userId timestamp (index + 1) rest
          (persisted ++ [⟨pending.name, pending.type, pending.size, path⟩])
          (display ++ [⟨pending.name, signedUrl, pending.type, pending.size, path⟩])

/-- `uploadAttachments` of the ChatBot component: requires a signed-in user,
then uploads and signs each staged file in staging order. (The source's
clearing of the staged list and preview URLs on success is a state effect
modelled at the caller, `handleSendMessage`.) -/
def uploadAttachments (env : StorageEnv) (userId : Option String) (timestamp : Nat)
    (pendingAttachments : List PendingFile) :
    Except String (List PersistedAttachment × List ChatAttachment) :=
  match userId with
  | none => .error "Please sign in to share files."
  | some uid => uploadLoop env uid timestamp 0 pendingAttachments [] []

/-- The local state of the ChatBot component that the send handler reads and
writes: the transcript, the input box, the sending flag, the staged
attachments, and whether a model chat session is active. -/
structure ChatState where
  messages : List ChatMessage
  input : String
  isLoading : Bool
  pendingAttachments : List PendingFile
  hasSession : Bool
deriving DecidableEq, Repr

/-- `input.trim()` of the source: strip leading and trailing whitespace. -/
def trimString (s : String) : String :=
  String.mk (((s.data.dropWhile Char.isWhitespace).reverse.dropWhile Char.isWhitespace).reverse)

/-- Environment for one send action: the storage service, the outcome of
the model session's `sendMessage` call, and the upload timestamp. -/
structure SendEnv where
  storage : StorageEnv
  sendMessage : Except String String
  timestamp : Nat

/-- `handleSendMessage` of the ChatBot component, as a state transition.
The returned Boolean records whether the send reached the model session
(`chatRef.current.sendMessage`). Persistence inserts do not change local
component state and their results are not inspected by the source, so they
are not modelled. -/
def handleSendMessage (env : SendEnv) (hasMemory : Bool) (userId : Option String)
    (st : ChatState) : ChatState × Bool :=
  let trimmedInput := trimString st.input
  if trimmedInput = "" ∧ st.pendingAttachments = [] then (st, false)
  else if st.isLoading = true ∨ st.hasSession = false then (st, false)
  else
    let canPersistConversation := hasMemory && userId.isSome
    let st1 := { st with isLoading := true }
    let afterUpload : Except String (ChatState × Option (List ChatAttachment)) :=
      if st1.pendingAttachments = [] then .ok (st1, none)
      else if canPersistConversation = false then
        .error "Please sign in to upload files and keep them in your chat history."
      else
        match uploadAttachments env.storage userId env.timestamp st1.pendingAttachments with
        | .error e => .error e
        | .ok (_, display) => .ok ({ st1 with pendingAttachments := [] }, some display)
    match afterUpload with
    | .error e =>
      ({ st1 with messages := st1.messages ++ [⟨Role.model, e, none⟩], isLoading := false }, false)
    | .ok (st2, attachmentsForDisplay) =>
      let userMessage : ChatMessage :=
        ⟨Role.user, if trimmedInput = "" then "Shared attachments." else trimmedInput,
          attachmentsForDisplay⟩
      let st3 := { st2 with messages := st2.messages ++ [userMessage], input := "" }
      match env.sendMessage with
      | .error e =>
        ({ st3 with messages := st3.messages ++ [⟨Role.model, e, none⟩], isLoading := false }, true)
      | .ok responseText =>
        ({ st3 with isLoading := false
                    messages := st3.messages ++ [⟨Role.model, responseText, none⟩] }, true)

/-! ## Authentication adapter (auth utility module) -/

structure StoredUser where
  id : String
  email : String
  name : Option String
deriving DecidableEq, Repr

/-- The provider's user object as the adapter reads it: id, optional email,
and `user_metadata.name` when it is a string. -/
structure ProviderUser where
  id : String
  email : Option String
  metadataName : Option String
deriving DecidableEq, Repr

/-- Auth provider environment for one sign-up call: the result of
`supabase.auth.signUp` (an error, or a possibly-null user), and the error
the `profiles` upsert would report if reached. -/
structure AuthEnv where
  signUpResult : Except String (Option ProviderUser)
  profilesUpsertError : Option String

/-- `mapUser` of the auth module. -/
def mapUser (user : ProviderUser) : StoredUser :=
  { id := user.id, email := user.email.getD "", name := user.metadataName }

/-- `signUp` of the auth module, instrumented: the second component records
whether the `profiles` upsert call was reached. -/
def signUpRun (env : AuthEnv) (name : String) : Except String StoredUser × Bool :=
  match env.signUpResult with
  | .error e => (.error e, false)
  | .ok none => (.error "Sign up succeeded but no user was returned.", false)
  | .ok (some user) =>
    if name ≠ "" then
      match env.profilesUpsertError with
      | some profileError => (.error profileError, true)
      | none => (.ok (mapUser user), true)
    else (.ok (mapUser user), false)

/-- `signUp` of the auth module (the email and password only feed the
provider call, whose outcome the environment already fixes). -/
def signUp (env : AuthEnv) (name : String) : Except String StoredUser :=
  (signUpRun env name).1

/-! ## History re-hydration (ChatBot component) -/

/-- One row of the `messages` table as `fetchHistory` selects it. -/
structure HistoryRow where
  role : Role
  content : String
  attachments : Option (List PersistedAttachment)
deriving DecidableEq, Repr

/-- The per-attachment resolution inside `fetchHistory`: re-sign the stored
path; on a signing error (or a response without a URL) degrade to a
placeholder with url `"#"`, keeping name, type, size and storage path. -/
def resolveAttachment (createSignedUrl : String → Except String String)
    (attachment : PersistedAttachment) : ChatAttachment :=
  match createSignedUrl attachment.storagePath with
  | .error _ =>
    ⟨attachment.name, "#", attachment.type, attachment.size, attachment.storagePath⟩
  | .ok signedUrl =>
    ⟨attachment.name, signedUrl, attachment.type, attachment.size, attachment.storagePath⟩

/-- The per-row resolution inside `fetchHistory`'s loop over entries. -/
def resolveRow (createSignedUrl : String → Except String String)
    (entry : HistoryRow) : ChatMessage :=
  { role := entry.role, content := entry.content,
    attachments := entry.attachments.map (fun persisted =>
      persisted.map (resolveAttachment createSignedUrl)) }

/-- `fetchHistory` of the ChatBot component: throw on a select error, treat
missing data as an empty history, and resolve each row's attachments. -/
def fetchHistory (createSignedUrl : String → Except String String)
    (queryResult : Except String (Option (List HistoryRow))) :
    Except String (List ChatMessage) :=
  match queryResult with
  | .error e => .error e
  | .ok none => .ok []
  | .ok (some rows) => .ok (rows.map (resolveRow createSignedUrl))

/-! ## Voice assistant (VoiceAssistant component) -/

inductive SessionStatus where
  | IDLE
  | CONNECTING
  | LISTENING
  | ERROR
  | CLOSED
deriving DecidableEq, Repr

/-- One entry of the `transcriptions` state:
`{ user: string; model: string; isFinal: boolean }`. -/
structure Turn where
  user : String
  model : String
  isFinal : Bool
deriving DecidableEq, Repr

/-- The transcript-assembly state of the component: the `transcriptions`
list and the two accumulator refs. -/
structure VoiceState where
  transcriptions : List Turn
  currentInputTranscription : String
  currentOutputTranscription : String
deriving DecidableEq, Repr

def initialVoiceState : VoiceState := ⟨[], "", ""⟩

/-- The `serverContent` fields of one incoming message that drive transcript
assembly; the audio payload drives playback scheduling, modelled separately
by `scheduleChunk`. -/
structure ServerContent where
  inputTranscription : Option String
  outputTranscription : Option String
  turnComplete : Bool
deriving DecidableEq, Repr

/-- In-place mutation of `newTranscriptions[newTranscriptions.length - 1]`. -/
def updateLastTurn (f : Turn → Turn) : List Turn → List Turn
  | [] => []
  | [t] => [f t]
  | t :: rest => t :: updateLastTurn f rest

/-- `newTranscriptions[newTranscriptions.length - 1].isFinal` (false on an
empty list, where the source's guards skip the access). -/
def lastTurnIsFinal (l : List Turn) : Bool :=
  match l.getLast? with
  | none => false
  | some t => t.isFinal

/-- The `if (inputTranscription)` block of `onmessage`: extend the input
accumulator, then either open a new turn (when the list is empty or its
last turn is final) or rewrite the open turn's user text. -/
def applyInputTranscription (st : VoiceState) : Option String → VoiceState
  | none => st
  | some text =>
    let ci := st.currentInputTranscription ++ text
    let trs :=
      if st.transcriptions.isEmpty || lastTurnIsFinal st.transcriptions then
        st.transcriptions ++ [⟨ci, "", false⟩]
      else
        updateLastTurn (fun turn => { turn with user := ci }) st.transcriptions
    { st with transcriptions := trs, currentInputTranscription := ci }

/-- The `if (outputTranscription)` block of `onmessage`: extend the output
accumulator, and rewrite the last turn's model text when a turn exists. -/
def applyOutputTranscription (st : VoiceState) : Option String → VoiceState
  | none => st
  | some text =>
    let co := st.currentOutputTranscription ++ text
    let trs :=
      if st.transcriptions.isEmpty then st.transcriptions
      else updateLastTurn (fun turn => { turn with model := co }) st.transcriptions
    { st with transcriptions := trs, currentOutputTranscription := co }

/-- The `if (turnComplete)` block of `onmessage`: seal the last turn when
one exists and reset both accumulators. -/
def applyTurnComplete (st : VoiceState) : Bool → VoiceState
  | false => st
  | true =>
    { transcriptions :=
        updateLastTurn (fun turn => { turn with isFinal := true }) st.transcriptions,
      currentInputTranscription := "", currentOutputTranscription := "" }

/-- The transcript-assembly part of `onmessage` for one server message, in
the source's order: input transcription, output transcription, turn
completion. -/
def processServerContent (st : VoiceState) (m : ServerContent) : VoiceState :=
  applyTurnComplete
    (applyOutputTranscription (applyInputTranscription st m.inputTranscription)
      m.outputTranscription)
    m.turnComplete

/-- The transcript reached from the empty transcript by a sequence of
server messages. -/
def processEvents (events : List ServerContent) : VoiceState :=
  events.foldl processServerContent initialVoiceState

def inputEvent (text : String) : ServerContent := ⟨some text, none, false⟩

def outputEvent (text : String) : ServerContent := ⟨none, some text, false⟩

def turnCompleteEvent : ServerContent := ⟨none, none, true⟩

/-- Every turn before the last is final: at most the last turn is open. -/
def allButLastFinal (l : List Turn) : Bool :=
  l.dropLast.all (fun t => t.isFinal)

/-- The audio branch of `onmessage`, acting on the playback cursor
`nextStartTimeRef`: clamp the cursor to the audio context's current time,
start the decoded chunk at the clamped cursor, then advance the cursor by
the chunk's duration. Returns (scheduled start time, new cursor). -/
def scheduleChunk (nextStartTime currentTime duration : ℚ) : ℚ × ℚ :=
  let start := max nextStartTime currentTime
  (start, start + duration)

/-- The external calls `stopSession` performs, in source order. The stream's
`getTracks().forEach(track => track.stop())` is one action on the whole
stream; each tracked audio source contributes one `stopScheduledSource`. -/
inductive TeardownAction where
  | closeSession
  | stopAudioTracks
  | disconnectProcessor
  | closeInputAudioContext
  | closeOutputAudioContext
  | stopScheduledSource
deriving DecidableEq, Repr

/-- The resource handles of the voice controller: presence of the session,
capture stream, processor node and the two audio contexts, the number of
tracked scheduled sources, the playback cursor, and the status. -/
structure VoiceResources where
  session : Bool
  audioStream : Bool
  processor : Bool
  inputAudioContext : Bool
  outputAudioContext : Bool
  audioSources : Nat
  nextStartTime : ℚ
  status : SessionStatus
deriving DecidableEq, Repr

/-- `stopSession` of the VoiceAssistant component: close/stop/disconnect
each present resource (each guarded by a null check in the source), stop
every tracked source and clear the set, reset the cursor, land in IDLE.
Returns the new resource state and the external calls performed. -/
def stopSession (st : VoiceResources) : VoiceResources × List TeardownAction :=
  let actions :=
    (if st.session then [TeardownAction.closeSession] else []) ++
    (if st.audioStream then [TeardownAction.stopAudioTracks] else []) ++
    (if st.processor then [TeardownAction.disconnectProcessor] else []) ++
    (if st.inputAudioContext then [TeardownAction.closeInputAudioContext] else []) ++
    (if st.outputAudioContext then [TeardownAction.closeOutputAudioContext] else []) ++
    List.replicate st.audioSources TeardownAction.stopScheduledSource
  ({ session := false, audioStream := false, processor := false,
     inputAudioContext := false, outputAudioContext := false,
     audioSources := 0, nextStartTime := 0, status := SessionStatus.IDLE }, actions)

/-- The state of a controller in IDLE with every resource handle cleared:
what `stopSession` itself leaves behind. -/
def idleVoiceResources : VoiceResources :=
  { session := false, audioStream := false, processor := false,
    inputAudioContext := false, outputAudioContext := false,
    audioSources := 0, nextStartTime := 0, status := SessionStatus.IDLE }

/-! ## Keys used to state order preservation of the upload batch -/

/-- The identifying data of a staged file, for comparing batch order. -/
def fileKey (f : PendingFile) : String × String × Nat := (f.name, f.type, f.size)

/-- The identifying data of a persisted attachment. -/
def persistedKey (p : PersistedAttachment) : String × String × Nat := (p.name, p.type, p.size)

/-- The identifying data of a display attachment. -/
def displayKey (d : ChatAttachment) : String × String × Nat := (d.name, d.type, d.size)

/-! ## Theorems -/

/-! ### Conversation title assignment -/

lemma generateTitle_biology_eval :
    generateTitleFromMessage "Can you help me study for my biology exam tomorrow please"
      = "Can you help me study for…" := by decide

/-- Claim C1, counterexample: sending the literal message of the claim to a
fresh conversation holding the default title does not assign the title
"Can you help me study for my…" claimed (that string keeps seven words of
the message; the code keeps six). -/
theorem title_assignment_claim_counterexample :
    updateConversationTitle [⟨"c1", DEFAULT_CONVERSATION_TITLE, "t0"⟩] "c1"
        "Can you help me study for my biology exam tomorrow please"
      ≠ [⟨"c1", "Can you help me study for my…", "t0"⟩] := by decide

/-- Claim C1, as amended: for a freshly created conversation with the
default title, sending "Can you help me study for my biology exam tomorrow
please" as the first user message assigns the title
"Can you help me study for…" (the first six words, first character
capitalized, with an ellipsis appended because the message has more than
six words), and any second, later title-assignment attempt on the same
conversation leaves the title unchanged. -/
theorem title_assignment_once (cid created msg2 : String) :
    updateConversationTitle [⟨cid, DEFAULT_CONVERSATION_TITLE, created⟩] cid
        "Can you help me study for my biology exam tomorrow please"
      = [⟨cid, "Can you help me study for…", created⟩]
    ∧ updateConversationTitle [⟨cid, "Can you help me study for…", created⟩] cid msg2
      = [⟨cid, "Can you help me study for…", created⟩] := by
  constructor
  · simp [updateConversationTitle, List.find?, generateTitle_biology_eval]
  · have hne : ("Can you help me study for…" : String) ≠ DEFAULT_CONVERSATION_TITLE := by decide
    simp [updateConversationTitle, List.find?, hne]

/-! ### Upload batch: all-or-nothing, in staging order -/

lemma uploadLoop_ok_keys (env : StorageEnv) (userId : String) (timestamp : Nat) :
    ∀ (rest : List PendingFile) (index : Nat) (persisted : List PersistedAttachment)
      (display : List ChatAttachment) (out : List PersistedAttachment × List ChatAttachment),
      uploadLoop env userId timestamp index rest persisted display = Except.ok out →
      out.1.map persistedKey = persisted.map persistedKey ++ rest.map fileKey
      ∧ out.2.map displayKey = display.map displayKey ++ rest.map fileKey
  | [], index, persisted, display, out => by
    intro h
    simp [uploadLoop] at h
    simp [← h]
  | pending :: rest, index, persisted, display, out => by
    intro h
    simp only [uploadLoop] at h
    cases hup : env.uploadError (storagePathFor userId timestamp index pending.name) with
    | some e => rw [hup] at h; exact absurd h (by simp)
    | none =>
      rw [hup] at h
      cases hsign : env.createSignedUrl (storagePathFor userId timestamp index pending.name) with
      | error e => rw [hsign] at h; exact absurd h (by simp)
      | ok url =>
        rw [hsign] at h
        have ih := uploadLoop_ok_keys env userId timestamp rest (index + 1)
          (persisted ++ [⟨pending.name, pending.type, pending.size,
            storagePathFor userId timestamp index pending.name⟩])
          (display ++ [⟨pending.name, url, pending.type, pending.size,
            storagePathFor userId timestamp index pending.name⟩]) out h
        constructor
        · rw [ih.1]; simp [persistedKey, fileKey]
        · rw [ih.2]; simp [displayKey, fileKey]

lemma uploadLoop_error_firstFailure (env : StorageEnv) (userId : String) (timestamp : Nat) :
    ∀ (rest : List PendingFile) (index : Nat) (persisted : List PersistedAttachment)
      (display : List ChatAttachment) (e : String),
      uploadLoop env userId timestamp index rest persisted display = Except.error e →
      firstFailure env userId timestamp index rest = some e
  | [], index, persisted, display, e => by
    intro h
    simp [uploadLoop] at h
  | pending :: rest, index, persisted, display, e => by
    intro h
    simp only [uploadLoop] at h
    cases hup : env.uploadError (storagePathFor userId timestamp index pending.name) with
    | some uploadErr =>
      rw [hup] at h
      simp at h
      simp [firstFailure, stepError, hup, h]
    | none =>
      rw [hup] at h
      cases hsign : env.createSignedUrl (storagePathFor userId timestamp index pending.name) with
      | error signedErr =>
        rw [hsign] at h
        simp at h
        simp [firstFailure, stepError, hup, hsign, h]
      | ok url =>
        rw [hsign] at h
        have ih := uploadLoop_error_firstFailure env userId timestamp rest (index + 1) _ _ e h
        simp [firstFailure, stepError, hup, hsign, ih]

lemma firstFailure_none_uploadLoop_ok (env : StorageEnv) (userId : String) (timestamp : Nat) :
    ∀ (rest : List PendingFile) (index : Nat) (persisted : List PersistedAttachment)
      (display : List ChatAttachment),
      firstFailure env userId timestamp index rest = none →
      ∃ out, uploadLoop env userId timestamp index rest persisted display = Except.ok out
  | [], index, persisted, display => by
    intro _
    exact ⟨(persisted, display), rfl⟩
  | pending :: rest, index, persisted, display => by
    intro h
    simp only [firstFailure] at h
    cases hstep : stepError env userId timestamp index pending with
    | some e => rw [hstep] at h; simp at h
    | none =>
      rw [hstep] at h
      simp only [stepError] at hstep
      cases hup : env.uploadError (storagePathFor userId timestamp index pending.name) with
      | some e => rw [hup] at hstep; simp at hstep
      | none =>
        rw [hup] at hstep
        cases hsign : env.createSignedUrl (storagePathFor userId timestamp index pending.name) with
        | error e => rw [hsign] at hstep; simp at hstep
        | ok url =>
          have ih := firstFailure_none_uploadLoop_ok env userId timestamp rest (index + 1)
            (persisted ++ [⟨pending.name, pending.type, pending.size,
              storagePathFor userId timestamp index pending.name⟩])
            (display ++ [⟨pending.name, url, pending.type, pending.size,
              storagePathFor userId timestamp index pending.name⟩]) h
          obtain ⟨out, hout⟩ := ih
          refine ⟨out, ?_⟩
          simp only [uploadLoop, hup, hsign]
          exact hout

/-- Claim C2: the upload batch either returns exactly N persisted+display
pairs carrying the staged files' data in staging order, or raises the error
of the first failing attachment; an error result carries no pairs at all,
and when no attachment fails the batch succeeds. -/
theorem uploadAttachments_all_or_nothing (env : StorageEnv) (userId : String)
    (timestamp : Nat) (pendingAttachments : List PendingFile) :
    (∀ out, uploadAttachments env (some userId) timestamp pendingAttachments = Except.ok out →
        out.1.map persistedKey = pendingAttachments.map fileKey
        ∧ out.2.map displayKey = pendingAttachments.map fileKey
        ∧ out.1.length = pendingAttachments.length
        ∧ out.2.length = pendingAttachments.length)
    ∧ (∀ e, uploadAttachments env (some userId) timestamp pendingAttachments = Except.error e →
        firstFailure env userId timestamp 0 pendingAttachments = some e)
    ∧ (firstFailure env userId timestamp 0 pendingAttachments = none →
        ∃ out, uploadAttachments env (some userId) timestamp pendingAttachments
          = Except.ok out) := by
  refine ⟨?_, ?_, ?_⟩
  · intro out h
    have hk := uploadLoop_ok_keys env userId timestamp pendingAttachments 0 [] [] out h
    simp at hk
    refine ⟨hk.1, hk.2, ?_, ?_⟩
    · have := congrArg List.length hk.1
      simpa using this
    · have := congrArg List.length hk.2
      simpa using this
  · intro e h
    exact uploadLoop_error_firstFailure env userId timestamp pendingAttachments 0 [] [] e h
  · intro h
    exact firstFailure_none_uploadLoop_ok env userId timestamp pendingAttachments 0 [] [] h

/-- Claim C2, witness: a two-file batch against a storage environment in
which every upload and signing succeeds. -/
theorem uploadAttachments_all_or_nothing_witness :
    ((([⟨"a b.txt", "text/plain", 3, "u1/7-0-a_b.txt"⟩,
        ⟨"c.png", "image/png", 5, "u1/7-1-c.png"⟩] : List PersistedAttachment).map persistedKey
      = ([⟨"a b.txt", "text/plain", 3⟩, ⟨"c.png", "image/png", 5⟩] : List PendingFile).map fileKey))
    ∧ firstFailure ⟨fun _ => none, fun p => Except.ok ("https://signed/" ++ p)⟩ "u1" 7 0
        [⟨"a b.txt", "text/plain", 3⟩, ⟨"c.png", "image/png", 5⟩] = none := by
  constructor
  · exact ((uploadAttachments_all_or_nothing
      ⟨fun _ => none, fun p => Except.ok ("https://signed/" ++ p)⟩ "u1" 7
      [⟨"a b.txt", "text/plain", 3⟩, ⟨"c.png", "image/png", 5⟩]).1
      (⟨[⟨"a b.txt", "text/plain", 3, "u1/7-0-a_b.txt"⟩, ⟨"c.png", "image/png", 5, "u1/7-1-c.png"⟩],
        [⟨"a b.txt", "https://signed/u1/7-0-a_b.txt", "text/plain", 3, "u1/7-0-a_b.txt"⟩,
         ⟨"c.png", "https://signed/u1/7-1-c.png", "image/png", 5, "u1/7-1-c.png"⟩]⟩)
      rfl).1
  · rfl

/-! ### Empty send is a no-op -/

/-- Claim C3: a send whose input trims to empty with no staged attachments
returns without contacting the model session and with the component state
(transcript included) unchanged. -/
theorem empty_send_is_noop (env : SendEnv) (hasMemory : Bool) (userId : Option String)
    (st : ChatState) (hin : trimString st.input = "") (hatt : st.pendingAttachments = []) :
    handleSendMessage env hasMemory userId st = (st, false) := by
  simp [handleSendMessage, hin, hatt]

/-- Claim C3, witness: a whitespace-only input with no staged attachments. -/
theorem empty_send_is_noop_witness :
    handleSendMessage ⟨⟨fun _ => none, fun p => Except.ok p⟩, Except.ok "r", 0⟩ true (some "uid")
        ⟨[⟨Role.model, "Hello!", none⟩], "   ", false, [], true⟩
      = (⟨[⟨Role.model, "Hello!", none⟩], "   ", false, [], true⟩, false) :=
  empty_send_is_noop _ _ _ _ (by decide) rfl

/-! ### Sign-up failure creates no local user state -/

/-- Claim C4: when the provider reports an error the adapter raises that
error, produces no user value and never reaches the profile upsert; when the
provider returns no user object the adapter raises its fixed message, again
without reaching the profile upsert. -/
theorem signUp_failure_no_user_state (env : AuthEnv) (name : String) :
    (∀ e, env.signUpResult = Except.error e →
        signUpRun env name = (Except.error e, false))
    ∧ (env.signUpResult = Except.ok none →
        signUpRun env name
          = (Except.error "Sign up succeeded but no user was returned.", false)) := by
  constructor
  · intro e h
    simp [signUpRun, h]
  · intro h
    simp [signUpRun, h]

/-- Claim C4, witness: a provider error and a provider null-user response. -/
theorem signUp_failure_no_user_state_witness :
    signUpRun ⟨Except.error "Email already registered", none⟩ "Ada"
        = (Except.error "Email already registered", false)
    ∧ signUpRun ⟨Except.ok none, none⟩ "Ada"
        = (Except.error "Sign up succeeded but no user was returned.", false) :=
  ⟨(signUp_failure_no_user_state ⟨Except.error "Email already registered", none⟩ "Ada").1
      "Email already registered" rfl,
   (signUp_failure_no_user_state ⟨Except.ok none, none⟩ "Ada").2 rfl⟩

/-! ### Voice transcript assembly -/

/-- Claim C5: from the empty transcript, the events partial-input "Hel",
partial-input "lo", turn-complete yield exactly one final turn with user
text "Hello" and empty model text, with both accumulators reset. -/
theorem voice_transcript_hello_assembly :
    processEvents [inputEvent "Hel", inputEvent "lo", turnCompleteEvent]
      = ⟨[⟨"Hello", "", true⟩], "", ""⟩ := by decide

/-! ### Playback scheduling -/

/-- Claim C6: for two chunks of durations d1 and d2 whose scheduling is
processed in order, the second chunk's scheduled start time is at least the
first chunk's start time plus d1. -/
theorem playback_chunks_never_overlap (nextStartTime now1 now2 d1 d2 : ℚ) :
    (scheduleChunk (scheduleChunk nextStartTime now1 d1).2 now2 d2).1
      ≥ (scheduleChunk nextStartTime now1 d1).1 + d1 := by
  simp [scheduleChunk]

/-! ### Teardown idempotence -/

/-- Claim C7: stopping the controller in the IDLE state with every resource
handle absent, the source set empty and the cursor zero performs no external
call (so none that could raise) and leaves the state unchanged, still IDLE
and cleared. -/
theorem stopSession_idle_noop :
    stopSession idleVoiceResources = (idleVoiceResources, []) := by rfl

/-! ### History re-hydration degrades per attachment -/

lemma resolveRow_attachment_count (createSignedUrl : String → Except String String)
    (entry : HistoryRow) :
    ((resolveRow createSignedUrl entry).attachments.map List.length)
      = entry.attachments.map List.length := by
  cases h : entry.attachments <;> simp [resolveRow, h]

/-- Claim C8: resolving a persisted message's attachments re-signs each URL
independently; a signing failure degrades only that attachment to a '#'
placeholder keeping its name, type, size and storage path, while the
history load still succeeds with one resolved message per row and the same
attachment counts. -/
theorem fetchHistory_degrades_individually (createSignedUrl : String → Except String String)
    (rows : List HistoryRow) :
    (∃ msgs, fetchHistory createSignedUrl (Except.ok (some rows)) = Except.ok msgs
      ∧ msgs.length = rows.length
      ∧ msgs.map (fun m => m.attachments.map List.length)
          = rows.map (fun r => r.attachments.map List.length))
    ∧ (∀ (a : PersistedAttachment) (e : String),
        createSignedUrl a.storagePath = Except.error e →
        resolveAttachment createSignedUrl a = ⟨a.name, "#", a.type, a.size, a.storagePath⟩)
    ∧ (∀ (a : PersistedAttachment) (url : String),
        createSignedUrl a.storagePath = Except.ok url →
        resolveAttachment createSignedUrl a = ⟨a.name, url, a.type, a.size, a.storagePath⟩) := by
  refine ⟨⟨rows.map (resolveRow createSignedUrl), rfl, by simp, ?_⟩, ?_, ?_⟩
  · rw [List.map_map]
    exact List.map_congr_left (fun r _ => resolveRow_attachment_count createSignedUrl r)
  · intro a e h
    simp [resolveAttachment, h]
  · intro a url h
    simp [resolveAttachment, h]

/-- Claim C8, witness: a signer that fails for one path and succeeds for
another, applied to one attachment each. -/
theorem fetchHistory_degrades_individually_witness :
    resolveAttachment
        (fun p => if p = "u1/10-1-c.png" then Except.ok "https://fresh" else Except.error "expired")
        ⟨"notes.pdf", "application/pdf", 9, "u1/10-0-notes.pdf"⟩
      = ⟨"notes.pdf", "#", "application/pdf", 9, "u1/10-0-notes.pdf"⟩
    ∧ resolveAttachment
        (fun p => if p = "u1/10-1-c.png" then Except.ok "https://fresh" else Except.error "expired")
        ⟨"c.png", "image/png", 5, "u1/10-1-c.png"⟩
      = ⟨"c.png", "https://fresh", "image/png", 5, "u1/10-1-c.png"⟩ :=
  ⟨(fetchHistory_degrades_individually
      (fun p => if p = "u1/10-1-c.png" then Except.ok "https://fresh" else Except.error "expired")
      [⟨Role.user, "hi", some [⟨"notes.pdf", "application/pdf", 9, "u1/10-0-notes.pdf"⟩]⟩]).2.1
      ⟨"notes.pdf", "application/pdf", 9, "u1/10-0-notes.pdf"⟩ "expired" rfl,
   (fetchHistory_degrades_individually
      (fun p => if p = "u1/10-1-c.png" then Except.ok "https://fresh" else Except.error "expired")
      [⟨Role.user, "hi", some [⟨"c.png", "image/png", 5, "u1/10-1-c.png"⟩]⟩]).2.2
      ⟨"c.png", "image/png", 5, "u1/10-1-c.png"⟩ "https://fresh" rfl⟩

/-! ### Open-turn invariant of the voice transcript -/

lemma updateLastTurn_ne_nil (f : Turn → Turn) (t : Turn) (l : List Turn) :
    updateLastTurn f (t :: l) ≠ [] := by
  cases l <;> simp [updateLastTurn]

lemma updateLastTurn_length (f : Turn → Turn) :
    ∀ l : List Turn, (updateLastTurn f l).length = l.length
  | [] => rfl
  | [_] => rfl
  | _ :: b :: rest => by
    simp [updateLastTurn, updateLastTurn_length f (b :: rest)]

lemma updateLastTurn_dropLast (f : Turn → Turn) :
    ∀ l : List Turn, (updateLastTurn f l).dropLast = l.dropLast
  | [] => rfl
  | [_] => rfl
  | a :: b :: rest => by
    have hne := updateLastTurn_ne_nil f b rest
    simp only [updateLastTurn]
    rw [List.dropLast_cons_of_ne_nil hne, List.dropLast_cons_of_ne_nil (by simp),
      updateLastTurn_dropLast f (b :: rest)]

lemma allButLastFinal_updateLastTurn (f : Turn → Turn) (l : List Turn) :
    allButLastFinal (updateLastTurn f l) = allButLastFinal l := by
  simp [allButLastFinal, updateLastTurn_dropLast]

lemma all_isFinal_of_allButLastFinal (l : List Turn) (hne : l ≠ [])
    (h : allButLastFinal l = true) (hlast : lastTurnIsFinal l = true) :
    l.all (fun t => t.isFinal) = true := by
  have hfin : (l.getLast hne).isFinal = true := by
    simpa [lastTurnIsFinal, List.getLast?_eq_getLast l hne] using hlast
  conv_lhs => rw [← List.dropLast_append_getLast hne]
  rw [List.all_append]
  unfold allButLastFinal at h
  simp [h, hfin]

lemma allButLastFinal_append_open (l : List Turn) (x : Turn)
    (h : allButLastFinal l = true)
    (hl : (l.isEmpty || lastTurnIsFinal l) = true) :
    allButLastFinal (l ++ [x]) = true := by
  have hdrop : (l ++ [x]).dropLast = l := by simp
  unfold allButLastFinal
  rw [hdrop]
  cases l with
  | nil => rfl
  | cons a rest =>
    have hlast : lastTurnIsFinal (a :: rest) = true := by simpa using hl
    exact all_isFinal_of_allButLastFinal (a :: rest) (by simp) h hlast

lemma allButLastFinal_applyInput (st : VoiceState) (o : Option String)
    (h : allButLastFinal st.transcriptions = true) :
    allButLastFinal (applyInputTranscription st o).transcriptions = true := by
  cases o with
  | none => exact h
  | some text =>
    simp only [applyInputTranscription]
    split
    · exact allButLastFinal_append_open _ _ h (by assumption)
    · rw [allButLastFinal_updateLastTurn]
      exact h

lemma allButLastFinal_applyOutput (st : VoiceState) (o : Option String)
    (h : allButLastFinal st.transcriptions = true) :
    allButLastFinal (applyOutputTranscription st o).transcriptions = true := by
  cases o with
  | none => exact h
  | some text =>
    simp only [applyOutputTranscription]
    split
    · exact h
    · rw [allButLastFinal_updateLastTurn]
      exact h

lemma allButLastFinal_applyTurnComplete (st : VoiceState) (b : Bool)
    (h : allButLastFinal st.transcriptions = true) :
    allButLastFinal (applyTurnComplete st b).transcriptions = true := by
  cases b with
  | false => exact h
  | true =>
    simp only [applyTurnComplete]
    rw [allButLastFinal_updateLastTurn]
    exact h

lemma allButLastFinal_process (st : VoiceState) (m : ServerContent)
    (h : allButLastFinal st.transcriptions = true) :
    allButLastFinal (processServerContent st m).transcriptions = true :=
  allButLastFinal_applyTurnComplete _ _
    (allButLastFinal_applyOutput _ _ (allButLastFinal_applyInput _ _ h))

lemma allButLastFinal_foldl :
    ∀ (events : List ServerContent) (st : VoiceState),
      allButLastFinal st.transcriptions = true →
      allButLastFinal (events.foldl processServerContent st).transcriptions = true
  | [], _ => fun h => h
  | m :: rest, st => fun h =>
    allButLastFinal_foldl rest (processServerContent st m) (allButLastFinal_process st m h)

/-- Claim C9: in every transcript state reachable from the empty transcript,
every turn other than the last is final (so at most the last turn is open);
and a partial user-transcript event appends a new turn exactly when the list
is empty or its last turn is final, otherwise it rewrites the open turn in
place (length unchanged, all earlier turns untouched). -/
theorem open_turn_invariant (events : List ServerContent) (st : VoiceState) (text : String) :
    allButLastFinal (processEvents events).transcriptions = true
    ∧ (processServerContent st (inputEvent text)).transcriptions.length
        = (if st.transcriptions.isEmpty || lastTurnIsFinal st.transcriptions
           then st.transcriptions.length + 1 else st.transcriptions.length)
    ∧ (processServerContent st (inputEvent text)).transcriptions.dropLast
        = (if st.transcriptions.isEmpty || lastTurnIsFinal st.transcriptions
           then st.transcriptions else st.transcriptions.dropLast) := by
  refine ⟨allButLastFinal_foldl events initialVoiceState rfl, ?_, ?_⟩
  · simp only [processServerContent, inputEvent, applyInputTranscription,
      applyOutputTranscription, applyTurnComplete]
    split
    · simp
    · simp [updateLastTurn_length]
  · simp only [processServerContent, inputEvent, applyInputTranscription,
      applyOutputTranscription, applyTurnComplete]
    split
    · simp
    · simp [updateLastTurn_dropLast]

/-! ### Output transcript before any user turn -/

/-- Claim C10, counterexample: an output-transcript event on the empty
transcript is indeed not displayed at that moment, but its text is not lost:
after a later user turn opens and another output event arrives, the
displayed model text "AB" still carries the earlier "A". -/
theorem output_lost_claim_counterexample :
    (processEvents [outputEvent "A"]).transcriptions = []
    ∧ (processEvents [outputEvent "A", inputEvent "hi", outputEvent "B"]).transcriptions
        = [⟨"hi", "AB", false⟩] := by decide

/-- Claim C10, as amended: a partial output-transcript event never changes
the number of turns (so it never opens one), and on an empty transcript it
leaves the displayed transcript empty while still appending its text to the
output accumulator — from where the text reappears in the next turn's model
field if a further output event precedes turn completion. -/
theorem output_on_empty_transcript (st : VoiceState) (text : String) :
    (processServerContent st (outputEvent text)).transcriptions.length
      = st.transcriptions.length
    ∧ (st.transcriptions = [] →
        (processServerContent st (outputEvent text)).transcriptions = []
        ∧ (processServerContent st (outputEvent text)).currentOutputTranscription
            = st.currentOutputTranscription ++ text) := by
  constructor
  · simp only [processServerContent, outputEvent, applyInputTranscription,
      applyOutputTranscription, applyTurnComplete]
    split
    · rfl
    · simp [updateLastTurn_length]
  · intro h
    simp [processServerContent, outputEvent, applyInputTranscription,
      applyOutputTranscription, applyTurnComplete, h]

/-- Claim C10, witness: one output event on the empty transcript. -/
theorem output_on_empty_transcript_witness :
    (processServerContent initialVoiceState (outputEvent "A")).transcriptions = []
    ∧ (processServerContent initialVoiceState (outputEvent "A")).currentOutputTranscription
        = "" ++ "A" :=
  (output_on_empty_transcript initialVoiceState "A").2 rfl
